import Mathlib

/-!
# Verification of the ESP32-ZMPT101B voltage-sensor driver

Shallow embedding of `src/components/zmpt101b/zmpt101b.c` (median filter,
I2S acquisition loop, RMS estimation) and proofs about it.

Modelling conventions:
* `uint16_t` sample values are `Nat` (hypotheses `≤ 65535` added where the
  C type bound matters).
* C out-parameters are modelled by passing the caller's current values in
  and returning the values they hold on return.
* Fallible `malloc`/`calloc` is modelled by a boolean "allocation succeeds"
  parameter.
* The blocking `i2s_read` driver is modelled by a trace of results, one per
  call: `none` is a driver error, `some chunk` is a successful read
  delivering (up to the requested number of) bytes.  An exhausted trace
  models the call blocking forever (`portMAX_DELAY`), giving `none` for the
  whole call.
* `double` arithmetic in the RMS computation is modelled exactly over `ℚ`;
  the concrete values proved about are far from rounding boundaries, where
  the exact-rational and IEEE-double computations agree.
-/

namespace ZMPT101B

/-- The element-insertion step of the insertion sort at
`zmpt101b.c:46-54`: `key` is placed after the maximal prefix of elements
not greater than it (the C inner loop shifts while `window[k-1] > key`). -/
def insertSortedC (key : Nat) : List Nat → List Nat
  | [] => [key]
  | x :: xs => if key < x then key :: x :: xs else x :: insertSortedC key xs

/-- The insertion sort of `zmpt101b.c:46-54`: elements are inserted left to
right into an initially empty sorted prefix. -/
def insertionSortC (l : List Nat) : List Nat :=
  l.foldl (fun acc x => insertSortedC x acc) []

/-- Spec-level sort ("the windowed slice is sorted", spec §4.1): Mathlib's
insertion sort by `≤`, used as the reference sorting function. -/
def sortSpec (l : List Nat) : List Nat :=
  List.insertionSort (· ≤ ·) l

/-- The median selected for index `i` by the loop body at
`zmpt101b.c:38-57`, reading from the (possibly partly overwritten) buffer
`d`: clamped window bounds, sort, element `current_window_size / 2`. -/
def medianAt (d : List Nat) (L half i : Nat) : Nat :=
  let start := if i < half then 0 else i - half
  let endi := if i + half ≥ L then L - 1 else i + half
  let cws := endi - start + 1
  ((insertionSortC ((d.drop start).take cws)).getD (cws / 2) 0)

/-- One iteration of the `for` loop at `zmpt101b.c:36-63` on the state
(buffer, `*min_value`, `*max_value`). -/
def medianStep (L half : Nat) (st : List Nat × Nat × Nat) (i : Nat) :
    List Nat × Nat × Nat :=
  let v := medianAt st.1 L half i
  let d' := st.1.set i v
  let mx' := if st.2.2 < v then v else st.2.2
  let mn' := if v < st.2.1 then v else st.2.1
  (d', mn', mx')

/-- `median_filter_in_place` (`zmpt101b.c:15-66`).  Returns the C function's
`bool` result together with the buffer and the two out-parameters on
return; `min0`/`max0` are the values the out-parameters held at the call
(returned unchanged on the failure paths, which do not write them).
`allocOk` models whether the `malloc` of the scratch window succeeds. -/
def median_filter_in_place (data : List Nat) (window_size : Nat)
    (allocOk : Bool) (min0 max0 : Nat) : Bool × List Nat × Nat × Nat :=
  -- line 18: validate window size (before the odd coercion)
  if window_size > data.length then (false, data, min0, max0)
  else
    -- lines 24-25: force the window size odd
    let ws := if window_size % 2 = 0 then window_size + 1 else window_size
    -- lines 27-31: scratch window allocation
    if allocOk = false then (false, data, min0, max0)
    else
      -- lines 33-34: *min_value = 0xFFFF, *max_value = !*min_value = 0
      let half := ws / 2
      let st := (List.range data.length).foldl
        (medianStep data.length half) (data, 65535, 0)
      (true, st.1, st.2.1, st.2.2)

/-- Reference in-place pass: same left-to-right fold as the implementation,
but selecting each median by the spec-level `sortSpec` and carrying no
min/max state. -/
def medianAtSpec (d : List Nat) (L half i : Nat) : Nat :=
  let start := if i < half then 0 else i - half
  let endi := if i + half ≥ L then L - 1 else i + half
  let cws := endi - start + 1
  ((sortSpec ((d.drop start).take cws)).getD (cws / 2) 0)

/-- In-place median pass as the spec's §4.1 step rule describes it, except
that (like the code) each window is read from the current, partly
overwritten buffer. -/
def median_inplace_ref (data : List Nat) (window_size : Nat) : List Nat :=
  let ws := if window_size % 2 = 0 then window_size + 1 else window_size
  let half := ws / 2
  (List.range data.length).foldl
    (fun d i => d.set i (medianAtSpec d data.length half i)) data

/-- The reference the claim describes: every window is taken from the
ORIGINAL, pre-filter buffer. -/
def median_ref_original (data : List Nat) (window_size : Nat) : List Nat :=
  let ws := if window_size % 2 = 0 then window_size + 1 else window_size
  let half := ws / 2
  (List.range data.length).map (fun i => medianAtSpec data data.length half i)

/-! ## Acquisition and RMS estimation (`zmpt101b_read_voltage`) -/

/-- `DMA_BUFFER_LEN` (`zmpt101b.h`): DMA buffer length in bytes. -/
def DMA_BUFFER_LEN : Nat := 1024

/-- `I2S_READ_BUFFER_16B` (`zmpt101b.h`):
`(DMA_BUFFER_LEN / sizeof(uint16_t)) * 2` 16-bit samples. -/
def I2S_READ_BUFFER_16B : Nat := (DMA_BUFFER_LEN / 2) * 2

/-- ESP-IDF error codes returned by `zmpt101b_read_voltage`. -/
inductive EspErr where
  | ESP_OK
  | ESP_ERR_NO_MEM
  | ESP_ERR_INVALID_SIZE
  deriving DecidableEq, Repr

/-- Result of the acquisition loop at `zmpt101b.c:158-168`. `ok` carries
the bytes accumulated in the I2S buffer; `ioError` is an `i2s_read`
failure; `incomplete` models the trace running out, i.e. a read blocking
forever on `portMAX_DELAY`. -/
inductive AcqRes where
  | ok (bytes : List Nat)
  | ioError
  | incomplete
  deriving DecidableEq, Repr

/-- The `do`/`while` accumulation loop at `zmpt101b.c:158-168`.
`target` is `I2S_READ_BUFFER_16B` (samples); `total` the bytes read so
far; `acc` the buffer contents so far.  Each successful driver call
delivers at most the `I2S_READ_BUFFER_16B * 2 - total_bytes_read` bytes
requested; the loop repeats while `total_bytes_read / 2 < target`. -/
def acquire_go (target : Nat) :
    Nat → List Nat → List (Option (List Nat)) → AcqRes
  | _, _, [] => .incomplete
  | total, acc, r :: rs =>
    match r with
    | none => .ioError
    | some chunk =>
      let taken := chunk.take (target * 2 - total)
      let total' := total + taken.length
      let acc' := acc ++ taken
      if total' / 2 < target then acquire_go target total' acc' rs
      else .ok acc'

/-- Whole acquisition phase of `zmpt101b_read_voltage`: the loop started
with `total_bytes_read = 0` and an empty buffer. -/
def acquireBytes (reads : List (Option (List Nat))) : AcqRes :=
  acquire_go I2S_READ_BUFFER_16B 0 [] reads

/-- Reinterpretation of the byte buffer as `uint16_t` samples
(little-endian pairs), the repacking implicit in reading bytes into a
`uint16_t*` buffer at `zmpt101b.c:152-161`.  A trailing odd byte cannot
occur (the loop stops at an even byte count). -/
def bytesToWords : List Nat → List Nat
  | [] => []
  | [b] => [b]
  | b0 :: b1 :: rest => (b0 + 256 * b1) :: bytesToWords rest

/-- The RMS computation at `zmpt101b.c:178-180`:
`round(((voltage_max - voltage_min) / 2.0) / 1.4142135)` where
`voltage_min`/`voltage_max` come from the calibration curve
`esp_adc_cal_raw_to_voltage` (modelled as `cal`, returning millivolts).
The `double` arithmetic is modelled exactly over `ℚ`. -/
def rms_estimate (cal : Nat → Nat) (min_value max_value : Nat) : ℤ :=
  round (((((cal max_value : ℚ)) - ((cal min_value : ℚ))) / 2)
    / (14142135 / 10000000))

/-- Modelled from the spec: the same estimate expressed in whole volts
("returns the RMS estimate in whole voltage units"), i.e. the
millivolt-level amplitude computation rescaled by 1000 before rounding.
Used only to compare against the code's actual formula. -/
def rms_estimate_volts (cal : Nat → Nat) (min_value max_value : Nat) : ℤ :=
  round ((((((cal max_value : ℚ)) - ((cal min_value : ℚ))) / 2)
    / (14142135 / 10000000)) / 1000)

/-- Outcome of one `zmpt101b_read_voltage` call: the returned error code,
the value left in `*rmsVoltage`, and a ledger of successful `calloc`s of
the I2S sample buffer and of `free`s of it along the executed path. -/
structure RVResult where
  err : EspErr
  rms : Nat
  i2s_allocs : Nat
  i2s_frees : Nat
  deriving DecidableEq, Repr

/-- `zmpt101b_read_voltage` (`zmpt101b.c:143-206`).  `bufAllocOk` models
the `calloc` of the I2S buffer, `reads` the `i2s_read` trace,
`windowAllocOk` the `malloc` inside `median_filter_in_place`, `cal` the
calibration curve.  `none` models the call never returning (a read
blocking forever).  Note the C code ignores the boolean result of
`median_filter_in_place` (line 173) and always proceeds to the RMS
computation with whatever `min_value`/`max_value` hold (initialised to 0
at lines 170-171). -/
def zmpt101b_read_voltage (bufAllocOk : Bool)
    (reads : List (Option (List Nat))) (windowAllocOk : Bool)
    (cal : Nat → Nat) : Option RVResult :=
  -- lines 152-156: calloc of the I2S buffer
  if bufAllocOk = false then some ⟨.ESP_ERR_NO_MEM, 0, 0, 0⟩
  else
    match acquireBytes reads with
    | .incomplete => none
    -- lines 162-166: read error: free the buffer, return ESP_ERR_INVALID_SIZE
    | .ioError => some ⟨.ESP_ERR_INVALID_SIZE, 0, 1, 1⟩
    | .ok bytes =>
      let words := bytesToWords bytes
      -- line 173: filter result ignored; min/max start at 0
      let fr := median_filter_in_place words 10 windowAllocOk 0 0
      -- lines 178-180: RMS, stored into the uint16_t out-parameter
      let rms := (rms_estimate cal fr.2.2.1 fr.2.2.2).toNat % 65536
      -- line 203: free the buffer, return ESP_OK
      some ⟨.ESP_OK, rms, 1, 1⟩

/-! ## Properties of the embedded insertion sort -/

lemma insertSortedC_perm (key : Nat) (l : List Nat) :
    List.Perm (insertSortedC key l) (key :: l) := by
  induction l with
  | nil => rfl
  | cons x xs ih =>
    rw [insertSortedC]
    by_cases h : key < x
    · simp [h]
    · simp only [if_neg h]
      exact (ih.cons x).trans (List.Perm.swap key x xs)

lemma insertSortedC_sorted {key : Nat} {l : List Nat}
    (hl : l.Sorted (· ≤ ·)) : (insertSortedC key l).Sorted (· ≤ ·) := by
  induction l with
  | nil => simp [insertSortedC]
  | cons x xs ih =>
    rw [List.sorted_cons] at hl
    rw [insertSortedC]
    by_cases h : key < x
    · rw [if_pos h, List.sorted_cons, List.sorted_cons]
      refine ⟨fun b hb => ?_, hl.1, hl.2⟩
      rcases List.mem_cons.mp hb with hb | hb
      · omega
      · exact le_trans (le_of_lt h) (hl.1 b hb)
    · rw [if_neg h, List.sorted_cons]
      refine ⟨fun b hb => ?_, ih hl.2⟩
      rcases List.mem_cons.mp ((insertSortedC_perm key xs).mem_iff.mp hb) with hb | hb
      · subst hb; omega
      · exact hl.1 b hb

lemma insertionSortC_aux (l : List Nat) :
    ∀ acc : List Nat, acc.Sorted (· ≤ ·) →
      (l.foldl (fun acc x => insertSortedC x acc) acc).Sorted (· ≤ ·) ∧
      List.Perm (l.foldl (fun acc x => insertSortedC x acc) acc) (acc ++ l) := by
  induction l with
  | nil => intro acc h; simpa using h
  | cons x xs ih =>
    intro acc h
    rw [List.foldl_cons]
    obtain ⟨hs, hp⟩ := ih (insertSortedC x acc) (insertSortedC_sorted h)
    refine ⟨hs, hp.trans ?_⟩
    exact ((insertSortedC_perm x acc).append_right xs).trans List.perm_middle.symm

lemma insertionSortC_sorted (l : List Nat) :
    (insertionSortC l).Sorted (· ≤ ·) :=
  (insertionSortC_aux l [] (by simp)).1

lemma insertionSortC_perm (l : List Nat) : List.Perm (insertionSortC l) l := by
  simpa using (insertionSortC_aux l [] (by simp)).2

lemma insertionSortC_eq_sortSpec (l : List Nat) :
    insertionSortC l = sortSpec l :=
  List.eq_of_perm_of_sorted
    ((insertionSortC_perm l).trans (List.perm_insertionSort _ l).symm)
    (insertionSortC_sorted l)
    (List.sorted_insertionSort _ l)


/-! ## Window and fold invariants of the median filter -/

lemma medianAt_eq (d : List Nat) (L half i : Nat) :
    medianAt d L half i =
      (insertionSortC ((d.drop (if i < half then 0 else i - half)).take
          ((if i + half ≥ L then L - 1 else i + half)
            - (if i < half then 0 else i - half) + 1))).getD
        (((if i + half ≥ L then L - 1 else i + half)
            - (if i < half then 0 else i - half) + 1) / 2) 0 := rfl

lemma medianAt_mem {d : List Nat} {L half i : Nat}
    (hL : d.length = L) (hi : i < L) : medianAt d L half i ∈ d := by
  rw [medianAt_eq]
  set s := if i < half then 0 else i - half with hs
  set e := if i + half ≥ L then L - 1 else i + half with he
  have hse : s ≤ i ∧ i ≤ e ∧ e < L := by
    refine ⟨?_, ?_, ?_⟩
    · rw [hs]; split <;> omega
    · rw [he]; split <;> omega
    · rw [he]; split <;> omega
  have hlen : ((d.drop s).take (e - s + 1)).length = e - s + 1 := by
    rw [List.length_take, List.length_drop, hL]
    omega
  have hslen : (insertionSortC ((d.drop s).take (e - s + 1))).length = e - s + 1 := by
    rw [(insertionSortC_perm _).length_eq, hlen]
  have hidx : (e - s + 1) / 2 < (insertionSortC ((d.drop s).take (e - s + 1))).length := by
    rw [hslen]
    exact Nat.div_lt_self (by omega) (by omega)
  rw [List.getD_eq_getElem?_getD, List.getElem?_eq_getElem hidx]
  simp only [Option.getD_some]
  have hmem := List.getElem_mem hidx
  rw [(insertionSortC_perm _).mem_iff] at hmem
  exact List.mem_of_mem_drop (List.mem_of_mem_take hmem)

lemma getD_set_same {d : List Nat} {k v : Nat} (hk : k < d.length) :
    (d.set k v).getD k 0 = v := by
  rw [List.getD_eq_getElem?_getD, List.getElem?_set_self (by omega)]
  rfl

lemma getD_set_other {d : List Nat} {k j v : Nat} (h : k ≠ j) :
    (d.set k v).getD j 0 = d.getD j 0 := by
  rw [List.getD_eq_getElem?_getD, List.getD_eq_getElem?_getD,
    List.getElem?_set_ne h]

lemma medianStep_foldl_spec (L half B : Nat) :
    ∀ (n k : Nat) (d : List Nat) (mn mx : Nat),
      d.length = L → k + n = L → (∀ x ∈ d, x ≤ B) →
      ((List.range' k n).foldl (medianStep L half) (d, mn, mx)).1.length = L
      ∧ (∀ j, j < k →
          ((List.range' k n).foldl (medianStep L half) (d, mn, mx)).1.getD j 0
            = d.getD j 0)
      ∧ (∀ x ∈ ((List.range' k n).foldl (medianStep L half) (d, mn, mx)).1,
          x ≤ B)
      ∧ ((List.range' k n).foldl (medianStep L half) (d, mn, mx)).2.1
          = ((((List.range' k n).foldl (medianStep L half) (d, mn, mx)).1.drop k).foldl
              (fun a v => if v < a then v else a) mn)
      ∧ ((List.range' k n).foldl (medianStep L half) (d, mn, mx)).2.2
          = ((((List.range' k n).foldl (medianStep L half) (d, mn, mx)).1.drop k).foldl
              (fun a v => if a < v then v else a) mx) := by
  intro n
  induction n with
  | zero =>
    intro k d mn mx hL hk hB
    simp only [List.range'_zero, List.foldl_nil]
    have hdrop : d.drop k = [] := List.drop_eq_nil_of_le (by omega)
    exact ⟨hL, fun j _ => by trivial, hB, by rw [hdrop]; rfl, by rw [hdrop]; rfl⟩
  | succ m ih =>
    intro k d mn mx hL hk hB
    rw [List.range'_succ, List.foldl_cons]
    have hkL : k < L := by omega
    set v := medianAt d L half k with hv
    have hvmem : v ∈ d := medianAt_mem hL hkL
    have hstep : medianStep L half (d, mn, mx) k
        = (d.set k v, (if v < mn then v else mn), (if mx < v then v else mx)) := rfl
    rw [hstep]
    have hlen1 : (d.set k v).length = L := by rw [List.length_set, hL]
    have hB1 : ∀ x ∈ d.set k v, x ≤ B := by
      intro x hx
      rcases List.mem_or_eq_of_mem_set hx with hx | hx
      · exact hB x hx
      · subst hx; exact hB v hvmem
    obtain ⟨ihlen, ihpre, ihB, ihmn, ihmx⟩ :=
      ih (k + 1) (d.set k v) (if v < mn then v else mn) (if mx < v then v else mx)
        hlen1 (by omega) hB1
    refine ⟨ihlen, ?_, ihB, ?_, ?_⟩
    · intro j hj
      rw [ihpre j (by omega), getD_set_other (by omega)]
    · rw [ihmn]
      have hkfin : k < (((List.range' (k+1) m).foldl (medianStep L half)
          (d.set k v, (if v < mn then v else mn), (if mx < v then v else mx))).1).length := by
        rw [ihlen]; omega
      have hfk : (((List.range' (k+1) m).foldl (medianStep L half)
          (d.set k v, (if v < mn then v else mn), (if mx < v then v else mx))).1)[k] = v := by
        have h1 := ihpre k (by omega)
        rw [getD_set_same (by omega)] at h1
        rw [List.getD_eq_getElem?_getD, List.getElem?_eq_getElem hkfin] at h1
        simpa using h1
      rw [List.drop_eq_getElem_cons hkfin, List.foldl_cons, hfk]
    · rw [ihmx]
      have hkfin : k < (((List.range' (k+1) m).foldl (medianStep L half)
          (d.set k v, (if v < mn then v else mn), (if mx < v then v else mx))).1).length := by
        rw [ihlen]; omega
      have hfk : (((List.range' (k+1) m).foldl (medianStep L half)
          (d.set k v, (if v < mn then v else mn), (if mx < v then v else mx))).1)[k] = v := by
        have h1 := ihpre k (by omega)
        rw [getD_set_same (by omega)] at h1
        rw [List.getD_eq_getElem?_getD, List.getElem?_eq_getElem hkfin] at h1
        simpa using h1
      rw [List.drop_eq_getElem_cons hkfin, List.foldl_cons, hfk]

lemma foldl_minStep_spec (l : List Nat) :
    ∀ a : Nat, (l.foldl (fun a v => if v < a then v else a) a ∈ a :: l)
      ∧ (∀ x ∈ a :: l, l.foldl (fun a v => if v < a then v else a) a ≤ x) := by
  induction l with
  | nil => intro a; exact ⟨List.mem_singleton_self a, by simp⟩
  | cons x xs ih =>
    intro a
    rw [List.foldl_cons]
    obtain ⟨hmem, hb⟩ := ih (if x < a then x else a)
    have hba : (xs.foldl (fun a v => if v < a then v else a)
        (if x < a then x else a)) ≤ (if x < a then x else a) :=
      hb _ (List.mem_cons_self _ _)
    constructor
    · rcases List.mem_cons.mp hmem with h | h
      · rw [h]
        by_cases hxa : x < a
        · rw [if_pos hxa]
          exact List.mem_cons_of_mem a (List.mem_cons_self x xs)
        · rw [if_neg hxa]
          exact List.mem_cons_self a (x :: xs)
      · exact List.mem_cons_of_mem a (List.mem_cons_of_mem x h)
    · intro y hy
      rcases List.mem_cons.mp hy with hy | hy
      · subst hy
        refine le_trans hba ?_
        split <;> omega
      · rcases List.mem_cons.mp hy with hy | hy
        · subst hy
          refine le_trans hba ?_
          split <;> omega
        · exact hb y (List.mem_cons_of_mem _ hy)

lemma foldl_maxStep_spec (l : List Nat) :
    ∀ a : Nat, (l.foldl (fun a v => if a < v then v else a) a ∈ a :: l)
      ∧ (∀ x ∈ a :: l, x ≤ l.foldl (fun a v => if a < v then v else a) a) := by
  induction l with
  | nil => intro a; exact ⟨List.mem_singleton_self a, by simp⟩
  | cons x xs ih =>
    intro a
    rw [List.foldl_cons]
    obtain ⟨hmem, hb⟩ := ih (if a < x then x else a)
    have hba : (if a < x then x else a) ≤ (xs.foldl (fun a v => if a < v then v else a)
        (if a < x then x else a)) :=
      hb _ (List.mem_cons_self _ _)
    constructor
    · rcases List.mem_cons.mp hmem with h | h
      · rw [h]
        by_cases hax : a < x
        · rw [if_pos hax]
          exact List.mem_cons_of_mem a (List.mem_cons_self x xs)
        · rw [if_neg hax]
          exact List.mem_cons_self a (x :: xs)
      · exact List.mem_cons_of_mem a (List.mem_cons_of_mem x h)
    · intro y hy
      rcases List.mem_cons.mp hy with hy | hy
      · subst hy
        refine le_trans ?_ hba
        split <;> omega
      · rcases List.mem_cons.mp hy with hy | hy
        · subst hy
          refine le_trans ?_ hba
          split <;> omega
        · exact hb y (List.mem_cons_of_mem _ hy)

lemma median_filter_success (data : List Nat) (w m0 x0 : Nat)
    (hw : ¬ w > data.length) :
    median_filter_in_place data w true m0 x0
      = (true,
         ((List.range data.length).foldl
           (medianStep data.length ((if w % 2 = 0 then w + 1 else w) / 2))
           (data, 65535, 0)).1,
         ((List.range data.length).foldl
           (medianStep data.length ((if w % 2 = 0 then w + 1 else w) / 2))
           (data, 65535, 0)).2.1,
         ((List.range data.length).foldl
           (medianStep data.length ((if w % 2 = 0 then w + 1 else w) / 2))
           (data, 65535, 0)).2.2) := by
  unfold median_filter_in_place
  rw [if_neg hw]
  simp

lemma medianAt_eq_spec (d : List Nat) (L half i : Nat) :
    medianAt d L half i = medianAtSpec d L half i := by
  unfold medianAt medianAtSpec
  dsimp only
  rw [insertionSortC_eq_sortSpec]

lemma foldl_fst_eq (L half : Nat) :
    ∀ (idxs : List Nat) (d : List Nat) (mn mx : Nat),
      ((idxs.foldl (medianStep L half) (d, mn, mx)).1)
        = idxs.foldl (fun d i => d.set i (medianAtSpec d L half i)) d := by
  intro idxs
  induction idxs with
  | nil => intro d mn mx; rfl
  | cons i is ih =>
    intro d mn mx
    rw [List.foldl_cons, List.foldl_cons]
    show ((is.foldl (medianStep L half)
      (d.set i (medianAt d L half i),
       (if medianAt d L half i < mn then medianAt d L half i else mn),
       (if mx < medianAt d L half i then medianAt d L half i else mx))).1) = _
    rw [ih, medianAt_eq_spec]

/-! ## Acquisition-loop and pipeline lemmas -/

lemma bytesToWords_length : ∀ l : List Nat,
    (bytesToWords l).length = (l.length + 1) / 2
  | [] => rfl
  | [b] => by simp [bytesToWords]
  | b0 :: b1 :: rest => by
    rw [bytesToWords, List.length_cons, List.length_cons, List.length_cons,
      bytesToWords_length rest]
    omega

lemma acquire_go_ok_length (target : Nat) :
    ∀ (reads : List (Option (List Nat))) (total : Nat) (acc buf : List Nat),
      total = acc.length → total ≤ target * 2 →
      acquire_go target total acc reads = AcqRes.ok buf →
      buf.length = target * 2 := by
  intro reads
  induction reads with
  | nil =>
    intro total acc buf _ _ h
    exact absurd h (by rw [acquire_go]; intro hc; cases hc)
  | cons r rs ih =>
    intro total acc buf htot hle h
    cases r with
    | none =>
      rw [acquire_go] at h
      cases h
    | some chunk =>
      rw [acquire_go] at h
      have htk : (chunk.take (target * 2 - total)).length ≤ target * 2 - total := by
        rw [List.length_take]
        omega
      by_cases hc : (total + (chunk.take (target * 2 - total)).length) / 2 < target
      · rw [if_pos hc] at h
        refine ih _ _ _ ?_ ?_ h
        · rw [List.length_append, htot]
        · omega
      · rw [if_neg hc] at h
        cases h
        rw [List.length_append, ← htot]
        have h2 : target ≤ (total + (chunk.take (target * 2 - total)).length) / 2 := by
          omega
        have h3 : target * 2 ≤ total + (chunk.take (target * 2 - total)).length := by
          have := (Nat.le_div_iff_mul_le (by omega : 0 < 2)).mp h2
          omega
        omega

lemma acquire_go_zero_chunk (target total : Nat) (acc : List Nat)
    (rs : List (Option (List Nat))) (h : total / 2 < target) :
    acquire_go target total acc (some [] :: rs)
      = acquire_go target total acc rs := by
  rw [acquire_go]
  rw [List.take_nil, List.length_nil, List.append_nil, Nat.add_zero,
    if_pos h]

lemma read_voltage_io_error (reads : List (Option (List Nat)))
    (wOk : Bool) (cal : Nat → Nat) (h : acquireBytes reads = AcqRes.ioError) :
    zmpt101b_read_voltage true reads wOk cal
      = some ⟨EspErr.ESP_ERR_INVALID_SIZE, 0, 1, 1⟩ := by
  unfold zmpt101b_read_voltage
  rw [h]
  norm_num

lemma acq_one_chunk (c : List Nat) (hc : c.length = 2048) :
    acquireBytes [some c] = AcqRes.ok c := by
  unfold acquireBytes acquire_go
  rw [I2S_READ_BUFFER_16B, DMA_BUFFER_LEN]
  norm_num
  rw [List.take_of_length_le (by omega), hc]
  norm_num

lemma bytesToWords_replicate_zero (n : Nat) :
    bytesToWords (List.replicate (2 * n) 0) = List.replicate n 0 := by
  induction n with
  | zero => rfl
  | succ k ih =>
    have h : 2 * (k + 1) = (2 * k) + 1 + 1 := by ring
    rw [h, List.replicate_succ, List.replicate_succ, bytesToWords, ih,
      List.replicate_succ]

lemma filter_alloc_fail (d : List Nat) (w m0 x0 : Nat)
    (hw : ¬ w > d.length) :
    median_filter_in_place d w false m0 x0 = (false, d, m0, x0) := by
  unfold median_filter_in_place
  simp only [if_neg hw, Bool.false_eq_true]
  norm_num

lemma read_voltage_ok (reads : List (Option (List Nat))) (wOk : Bool)
    (cal : Nat → Nat) (bytes : List Nat)
    (h : acquireBytes reads = AcqRes.ok bytes) :
    zmpt101b_read_voltage true reads wOk cal
      = some ⟨EspErr.ESP_OK,
          (rms_estimate cal
            (median_filter_in_place (bytesToWords bytes) 10 wOk 0 0).2.2.1
            (median_filter_in_place (bytesToWords bytes) 10 wOk 0 0).2.2.2).toNat
            % 65536,
          1, 1⟩ := by
  unfold zmpt101b_read_voltage
  rw [h]
  norm_num


/-! ## Claims -/

/-- C1 (counterexample): the spec fixture says filtering `[9,1,8,2,7]` with
window 3 yields `[1,8,2,7,2]` with min 1 and max 8; the code does not
produce that result. -/
theorem C1_fixture_counterexample :
    median_filter_in_place [9, 1, 8, 2, 7] 3 true 0 0
      ≠ (true, [1, 8, 2, 7, 2], 1, 8) := by
  decide

/-- C1 (amended): filtering `[9,1,8,2,7]` with window size 3 succeeds and
yields the filtered sequence `[9,8,8,7,7]` with returned min 7 and max 9
(each window is read from the partly overwritten buffer, and the median
index of an even-sized edge window is `size / 2`, the upper middle). -/
theorem C1_fixture_amended :
    median_filter_in_place [9, 1, 8, 2, 7] 3 true 0 0
      = (true, [9, 8, 8, 7, 7], 7, 9) := by
  decide

/-- C2 (counterexample): the in-place filter's output is NOT the
per-index median of the ORIGINAL pre-filter buffer: on `[9,1,8,2,7]` with
window 3 the implementation yields `[9,8,8,7,7]` while the
original-buffer reference yields `[9,8,2,7,7]` — the overwritten cell at
index 1 influences the window of index 2. -/
theorem C2_original_window_counterexample :
    (median_filter_in_place [9, 1, 8, 2, 7] 3 true 0 0).2.1
      ≠ median_ref_original [9, 1, 8, 2, 7] 3 := by
  decide

/-- C2 (amended): for every buffer and window size `w ≤ length`, the
implementation's output equals the reference pass that processes indices
left to right, sorting (with a specification-level sort) the clamped
window slice of the CURRENT, partly overwritten buffer and taking element
`currentSize / 2`: earlier in-place writes do influence later windows. -/
theorem C2_inplace_refinement_amended (data : List Nat) (w m0 x0 : Nat)
    (hw : w ≤ data.length) :
    (median_filter_in_place data w true m0 x0).2.1
      = median_inplace_ref data w := by
  rw [median_filter_success data w m0 x0 (by omega)]
  exact foldl_fst_eq data.length _ (List.range data.length) data 65535 0

/-- Witness for C2 (amended) at buffer `[9,1,8,2,7]`, window 3. -/
theorem C2_inplace_refinement_witness :
    3 ≤ ([9, 1, 8, 2, 7] : List Nat).length
    ∧ (median_filter_in_place [9, 1, 8, 2, 7] 3 true 1 2).2.1
        = median_inplace_ref [9, 1, 8, 2, 7] 3 :=
  ⟨by decide, C2_inplace_refinement_amended [9, 1, 8, 2, 7] 3 1 2 (by decide)⟩

/-- C3: for every buffer of length ≥ 1 with `uint16_t`-ranged values and
every window size ≤ length, the filter (with successful scratch
allocation) succeeds, the returned min is an element of and a lower bound
on the post-filter buffer, the returned max is an element of and an upper
bound on it, and min ≤ max. -/
theorem C3_minmax_tracking (data : List Nat) (w m0 x0 : Nat)
    (hlen : 1 ≤ data.length) (hw : w ≤ data.length)
    (hB : ∀ x ∈ data, x ≤ 65535) :
    (median_filter_in_place data w true m0 x0).1 = true
    ∧ (median_filter_in_place data w true m0 x0).2.2.1
        ∈ (median_filter_in_place data w true m0 x0).2.1
    ∧ (median_filter_in_place data w true m0 x0).2.2.2
        ∈ (median_filter_in_place data w true m0 x0).2.1
    ∧ (∀ x ∈ (median_filter_in_place data w true m0 x0).2.1,
        (median_filter_in_place data w true m0 x0).2.2.1 ≤ x
          ∧ x ≤ (median_filter_in_place data w true m0 x0).2.2.2)
    ∧ (median_filter_in_place data w true m0 x0).2.2.1
        ≤ (median_filter_in_place data w true m0 x0).2.2.2 := by
  have hw' : ¬ w > data.length := by omega
  rw [median_filter_success data w m0 x0 hw', List.range_eq_range']
  obtain ⟨hlen1, _, hBf, hmn, hmx⟩ :=
    medianStep_foldl_spec data.length ((if w % 2 = 0 then w + 1 else w) / 2)
      65535 data.length 0 data 65535 0 rfl (by omega) hB
  set st := (List.range' 0 data.length).foldl
    (medianStep data.length ((if w % 2 = 0 then w + 1 else w) / 2))
    (data, 65535, 0) with hst
  rw [List.drop_zero] at hmn hmx
  have hne : st.1 ≠ [] := by
    have : 0 < st.1.length := by omega
    exact List.ne_nil_of_length_pos this
  obtain ⟨hminmem, hlb⟩ := foldl_minStep_spec st.1 65535
  obtain ⟨hmaxmem, hub⟩ := foldl_maxStep_spec st.1 0
  rw [← hmn] at hminmem hlb
  rw [← hmx] at hmaxmem hub
  have hminin : st.2.1 ∈ st.1 := by
    rcases List.mem_cons.mp hminmem with h | h
    · cases hd : st.1 with
      | nil => exact absurd hd hne
      | cons y ys =>
        have hy : y ∈ st.1 := by rw [hd]; exact List.mem_cons_self y ys
        have h1 : st.2.1 ≤ y := hlb y (List.mem_cons_of_mem _ hy)
        have h2 : y ≤ 65535 := hBf y hy
        have hys : y = st.2.1 := by omega
        rw [← hys]
        exact List.mem_cons_self y ys
    · exact h
  have hmaxin : st.2.2 ∈ st.1 := by
    rcases List.mem_cons.mp hmaxmem with h | h
    · cases hd : st.1 with
      | nil => exact absurd hd hne
      | cons y ys =>
        have hy : y ∈ st.1 := by rw [hd]; exact List.mem_cons_self y ys
        have h1 : y ≤ st.2.2 := hub y (List.mem_cons_of_mem _ hy)
        have hys : y = st.2.2 := by omega
        rw [← hys]
        exact List.mem_cons_self y ys
    · exact h
  refine ⟨rfl, hminin, hmaxin, ?_, ?_⟩
  · intro x hx
    exact ⟨hlb x (List.mem_cons_of_mem _ hx), hub x (List.mem_cons_of_mem _ hx)⟩
  · exact hlb st.2.2 (List.mem_cons_of_mem _ hmaxin)

/-- Witness for C3 at buffer `[9,1,8,2,7]`, window 3. -/
theorem C3_minmax_tracking_witness :
    1 ≤ ([9, 1, 8, 2, 7] : List Nat).length
    ∧ 3 ≤ ([9, 1, 8, 2, 7] : List Nat).length
    ∧ (∀ x ∈ ([9, 1, 8, 2, 7] : List Nat), x ≤ 65535)
    ∧ ((median_filter_in_place [9, 1, 8, 2, 7] 3 true 0 0).1 = true
      ∧ (median_filter_in_place [9, 1, 8, 2, 7] 3 true 0 0).2.2.1
          ∈ (median_filter_in_place [9, 1, 8, 2, 7] 3 true 0 0).2.1
      ∧ (median_filter_in_place [9, 1, 8, 2, 7] 3 true 0 0).2.2.2
          ∈ (median_filter_in_place [9, 1, 8, 2, 7] 3 true 0 0).2.1
      ∧ (∀ x ∈ (median_filter_in_place [9, 1, 8, 2, 7] 3 true 0 0).2.1,
          (median_filter_in_place [9, 1, 8, 2, 7] 3 true 0 0).2.2.1 ≤ x
            ∧ x ≤ (median_filter_in_place [9, 1, 8, 2, 7] 3 true 0 0).2.2.2)
      ∧ (median_filter_in_place [9, 1, 8, 2, 7] 3 true 0 0).2.2.1
          ≤ (median_filter_in_place [9, 1, 8, 2, 7] 3 true 0 0).2.2.2) :=
  ⟨by decide, by decide, by decide,
    C3_minmax_tracking [9, 1, 8, 2, 7] 3 0 0 (by decide) (by decide) (by decide)⟩

/-- C4: for every buffer, window size strictly greater than the buffer
length, allocation outcome and prior out-parameter values, the filter
fails returning `false` with the buffer and both out-parameters unchanged
— the check happens before the odd coercion and before any allocation or
processing (the result does not depend on `allocOk`). -/
theorem C4_oversized_window_rejected (data : List Nat) (window_size : Nat)
    (allocOk : Bool) (m0 x0 : Nat) (h : window_size > data.length) :
    median_filter_in_place data window_size allocOk m0 x0
      = (false, data, m0, x0) := by
  unfold median_filter_in_place
  rw [if_pos h]

/-- Witness for C4 at buffer `[5]`, window 2, failed allocation. -/
theorem C4_oversized_window_rejected_witness :
    2 > ([5] : List Nat).length
    ∧ median_filter_in_place [5] 2 false 3 4 = (false, [5], 3, 4) :=
  ⟨by decide, C4_oversized_window_rejected [5] 2 false 3 4 (by decide)⟩

/-- C5 (counterexample): even window size `w` is NOT always equivalent to
`w + 1`: on the length-2 buffer `[1,2]`, window 2 passes validation (and
then runs with coerced size 3), while window 3 is rejected. -/
theorem C5_even_coercion_counterexample :
    median_filter_in_place [1, 2] 2 true 0 0
      ≠ median_filter_in_place [1, 2] 3 true 0 0 := by
  decide

/-- C5 (amended): for every buffer and even window size `w` with
`w ≠ length`, the filter behaves identically on `w` and `w + 1`: same
success or failure, same buffer contents, same min/max out-parameters.
(The equivalence fails exactly at even `w = length`, where `w` passes the
validation performed before the coercion but `w + 1` does not.) -/
theorem C5_even_coercion_amended (data : List Nat) (w : Nat)
    (allocOk : Bool) (m0 x0 : Nat) (heven : w % 2 = 0)
    (hne : w ≠ data.length) :
    median_filter_in_place data w allocOk m0 x0
      = median_filter_in_place data (w + 1) allocOk m0 x0 := by
  unfold median_filter_in_place
  by_cases h1 : w > data.length
  · rw [if_pos h1, if_pos (by omega)]
  · rw [if_neg h1, if_neg (by omega : ¬ w + 1 > data.length)]
    have e1 : (if w % 2 = 0 then w + 1 else w) = w + 1 := if_pos heven
    have e2 : (if (w + 1) % 2 = 0 then w + 1 + 1 else w + 1) = w + 1 :=
      if_neg (by omega)
    rw [e1, e2]

/-- Witness for C5 (amended) at buffer `[1,2,3]`, window 2. -/
theorem C5_even_coercion_witness :
    2 % 2 = 0 ∧ (2 : Nat) ≠ ([1, 2, 3] : List Nat).length
    ∧ median_filter_in_place [1, 2, 3] 2 true 0 0
        = median_filter_in_place [1, 2, 3] 3 true 0 0 :=
  ⟨by decide, by decide,
    C5_even_coercion_amended [1, 2, 3] 2 true 0 0 (by decide) (by decide)⟩

/-- C6: the RMS estimator computes
`round(((maxMv - minMv) / 2) / 1.4142135)` with round-to-nearest; with an
identity calibration curve and extremes 1000/5000 it returns 1414, and on
extremes 0/1000 it returns 354 where truncation would give 353 (the exact
quotient is 353.55…), showing the rounding is to nearest, not
truncation. -/
theorem C6_rms_rounding :
    (∀ cal mn mx, rms_estimate cal mn mx
        = round ((((cal mx : ℚ) - (cal mn : ℚ)) / 2) / (14142135 / 10000000)))
    ∧ rms_estimate (fun x => x) 1000 5000 = 1414
    ∧ rms_estimate (fun x => x) 0 1000 = 354
    ∧ (⌊((((1000 : ℚ)) - ((0 : ℚ))) / 2) / (14142135 / 10000000)⌋ : ℤ) = 353 := by
  refine ⟨fun cal mn mx => rfl, ?_, ?_, ?_⟩
  · unfold rms_estimate
    norm_num [round_eq]
  · unfold rms_estimate
    norm_num [round_eq]
  · norm_num [Int.floor_eq_iff]

/-- C7: when the scratch-window `malloc` inside the median filter fails
during a `zmpt101b_read_voltage` call, the failure is NOT surfaced: the
boolean result of `median_filter_in_place` is ignored (line 173), the
pipeline continues to the RMS computation with the still-zero
`min_value`/`max_value`, and the call returns `ESP_OK` with RMS 0.  This
witnesses the code-level divergence from the claim that the failure
aborts the call with a typed error. -/
theorem C7_window_alloc_failure_swallowed :
    zmpt101b_read_voltage true [some (List.replicate 2048 0)] false
      (fun x => x) = some ⟨EspErr.ESP_OK, 0, 1, 1⟩ := by
  have hw : bytesToWords (List.replicate 2048 0) = List.replicate 1024 0 := by
    have h := bytesToWords_replicate_zero 1024
    norm_num at h
    exact h
  have h2 := filter_alloc_fail (List.replicate 1024 0) 10 0 0
    (by rw [List.length_replicate]; omega)
  have hacq := acq_one_chunk (List.replicate 2048 0) (List.length_replicate 2048 0)
  rw [read_voltage_ok _ _ _ _ hacq, hw, h2]
  have hrms : rms_estimate (fun x => x) 0 0 = 0 := by
    unfold rms_estimate
    norm_num [round_eq]
  simp only [hrms]
  rfl

/-- C8: the acquisition loop accumulates successful reads (including
zero-byte ones, which merely continue the loop) until exactly
`I2S_READ_BUFFER_16B` 16-bit samples (`2 ×` that many bytes) have been
received; an `i2s_read` error aborts the loop immediately and
`zmpt101b_read_voltage` then frees the sample buffer (alloc/free ledger
balanced) and returns `ESP_ERR_INVALID_SIZE`. -/
theorem C8_acquisition_loop :
    (∀ reads buf, acquireBytes reads = AcqRes.ok buf →
        buf.length = I2S_READ_BUFFER_16B * 2
          ∧ (bytesToWords buf).length = I2S_READ_BUFFER_16B)
    ∧ (∀ total acc rs, total / 2 < I2S_READ_BUFFER_16B →
        acquire_go I2S_READ_BUFFER_16B total acc (some [] :: rs)
          = acquire_go I2S_READ_BUFFER_16B total acc rs)
    ∧ (∀ (total : Nat) (acc : List Nat) (rs : List (Option (List Nat))),
        acquire_go I2S_READ_BUFFER_16B total acc (none :: rs)
          = AcqRes.ioError)
    ∧ (∀ reads wOk cal, acquireBytes reads = AcqRes.ioError →
        zmpt101b_read_voltage true reads wOk cal
          = some ⟨EspErr.ESP_ERR_INVALID_SIZE, 0, 1, 1⟩) := by
  refine ⟨?_, ?_, ?_, read_voltage_io_error⟩
  · intro reads buf h
    have hlen := acquire_go_ok_length I2S_READ_BUFFER_16B reads 0 [] buf
      rfl (by omega) h
    refine ⟨hlen, ?_⟩
    rw [bytesToWords_length, hlen]
    norm_num [I2S_READ_BUFFER_16B, DMA_BUFFER_LEN]
  · exact fun total acc rs h => acquire_go_zero_chunk _ total acc rs h
  · intro total acc rs
    rfl

/-- Witness for C8: a full-size chunk is accumulated to exactly 2048
bytes / 1024 samples; a zero-byte read merely continues; an error read
aborts; an error trace makes the pipeline return `ESP_ERR_INVALID_SIZE`
with the buffer freed. -/
theorem C8_acquisition_loop_witness :
    (List.replicate 2048 (7 : Nat)).length = I2S_READ_BUFFER_16B * 2
    ∧ (bytesToWords (List.replicate 2048 (7 : Nat))).length
        = I2S_READ_BUFFER_16B
    ∧ acquire_go I2S_READ_BUFFER_16B 0 []
        [some [], some (List.replicate 2048 7)]
      = acquire_go I2S_READ_BUFFER_16B 0 [] [some (List.replicate 2048 7)]
    ∧ acquire_go I2S_READ_BUFFER_16B 6 [1, 2, 3] [none, some [4]]
        = AcqRes.ioError
    ∧ zmpt101b_read_voltage true [none] true (fun x => x)
        = some ⟨EspErr.ESP_ERR_INVALID_SIZE, 0, 1, 1⟩ :=
  ⟨(C8_acquisition_loop.1 _ _ (acq_one_chunk _ (List.length_replicate _ _))).1,
   (C8_acquisition_loop.1 _ _ (acq_one_chunk _ (List.length_replicate _ _))).2,
   C8_acquisition_loop.2.1 0 [] _
     (by norm_num [I2S_READ_BUFFER_16B, DMA_BUFFER_LEN]),
   C8_acquisition_loop.2.2.1 6 [1, 2, 3] [some [4]],
   C8_acquisition_loop.2.2.2 [none] true _ rfl⟩

/-- C9 (counterexample): with an identity calibration curve and filtered
extremes 1000/5000 the code stores 1414 — the millivolt-scale value — in
`*rmsVoltage`; the same estimate expressed in whole volts would be 1, so
the stored number is not in volts. -/
theorem C9_volts_counterexample :
    rms_estimate (fun x => x) 1000 5000 = 1414
    ∧ rms_estimate_volts (fun x => x) 1000 5000 = 1
    ∧ rms_estimate (fun x => x) 1000 5000
        ≠ rms_estimate_volts (fun x => x) 1000 5000 := by
  refine ⟨?_, ?_, ?_⟩
  · unfold rms_estimate
    norm_num [round_eq]
  · unfold rms_estimate_volts
    norm_num [round_eq]
  · unfold rms_estimate rms_estimate_volts
    norm_num [round_eq]

/-- C9 (amended): on success `zmpt101b_read_voltage` stores
`round(((maxMv - minMv) / 2) / 1.4142135)` in the units of the
calibration output (millivolts at the ADC pin, truncated into the
`uint16_t` out-parameter), with no conversion to whole volts; the
"volts" reading of the printed value relies on external potentiometer
calibration, not on a numeric rescaling. -/
theorem C9_millivolt_units_amended (reads : List (Option (List Nat)))
    (wOk : Bool) (cal : Nat → Nat) (bytes : List Nat)
    (h : acquireBytes reads = AcqRes.ok bytes) :
    zmpt101b_read_voltage true reads wOk cal
      = some ⟨EspErr.ESP_OK,
          (rms_estimate cal
            (median_filter_in_place (bytesToWords bytes) 10 wOk 0 0).2.2.1
            (median_filter_in_place (bytesToWords bytes) 10 wOk 0 0).2.2.2).toNat
            % 65536,
          1, 1⟩ :=
  read_voltage_ok reads wOk cal bytes h

/-- Witness for C9 (amended) on a successful full-size acquisition. -/
theorem C9_millivolt_units_witness :
    acquireBytes [some (List.replicate 2048 9)]
        = AcqRes.ok (List.replicate 2048 9)
    ∧ zmpt101b_read_voltage true [some (List.replicate 2048 9)] true
        (fun x => x)
      = some ⟨EspErr.ESP_OK,
          (rms_estimate (fun x => x)
            (median_filter_in_place (bytesToWords (List.replicate 2048 9))
              10 true 0 0).2.2.1
            (median_filter_in_place (bytesToWords (List.replicate 2048 9))
              10 true 0 0).2.2.2).toNat % 65536,
          1, 1⟩ :=
  ⟨acq_one_chunk _ (List.length_replicate _ _),
   C9_millivolt_units_amended [some (List.replicate 2048 9)] true
     (fun x => x) (List.replicate 2048 9) (acq_one_chunk _ (List.length_replicate _ _))⟩

/-- C10: on the empty buffer with window size 0 (which the even-coercion
turns into 1) the filter succeeds without touching the buffer, the loop
body never runs, and the out-parameters are left at their initialisation
values `0xFFFF` and `0` — so max < min on this degenerate input and the
min ≤ max invariant only holds for buffers of length ≥ 1. -/
theorem C10_empty_buffer_degenerate :
    median_filter_in_place [] 0 true 1 2 = (true, [], 65535, 0)
    ∧ (median_filter_in_place [] 0 true 1 2).2.2.2
        < (median_filter_in_place [] 0 true 1 2).2.2.1 := by
  decide

end ZMPT101B
